import Mathlib

set_option linter.unusedVariables false
set_option linter.unreachableTactic false
set_option linter.unusedTactic false

/-! Verification development for the LLKERNEL flash feature catalog
(src/src/main/c/src/LLKERNEL_flash.c).

The C source is shallowly embedded. Machine integers are modelled as `Nat`
with an explicit `% 2^32` wherever 32-bit wrap-around can actually occur;
the feature header is a record of its uint32 fields; the flash-controller
collaborator (external to the repository, specified by contract in
src/src/main/c/inc/flash_controller.h) is modelled by the geometric queries
of a configuration record together with success oracles of type
`Nat → Bool`, indexed by the target flash address, that tell whether a
given erase / page-program call reports FLASH_CTRL_OK.

Flash content in the feature area is modelled at header granularity: the
field `KState.slots` lists, in position order, the header stored at the
base of each feature slot that the C slot walk visits (slot `i` lives at
address `slotAddr c i`).  The copy-to-ROM streamer is modelled separately
at byte granularity (`CopyState`), because the claims about it never
couple it with the catalog; the single shared C buffer `mem_writeBuffer`
is represented in whichever state the claim concerns. -/

/-- Modulus of the 32-bit unsigned arithmetic used throughout the C file. -/
def U32_MOD : Nat := 4294967296

/-- Wrapping 32-bit subtraction, modelling uint32 expressions such as
`dest - target_page_address` and `nb_features -= 1u`. -/
def u32sub (a b : Nat) : Nat := (a + (U32_MOD - b % U32_MOD)) % U32_MOD

/-- Magic number marking a feature slot as used
(LLKERNEL_flash_configuration.h, default configuration). -/
def LLKERNEL_FEATURE_USED_MAGIC_NUMBER : Nat := 0x181C77E8

/-- Magic number marking a feature slot as removed
(LLKERNEL_flash_configuration.h, default configuration). -/
def LLKERNEL_FEATURE_REMOVED_MAGIC_NUMBER : Nat := 0x3ADCA7

/-- Size in bytes of `feature_header_t`: eight uint32 fields. -/
def sizeof_feature_header_t : Nat := 32

/-- Size in bytes of a `feature_header_t *` pointer on the 32-bit target.
The C file applies `sizeof` to the pointer variables `mem_buffer_feature_ptr`
(LLKERNEL_flash.c line 442) and `feature_ptr` (line 409), so those two
expressions evaluate to 4, not to the 32 bytes of the header itself. -/
def sizeof_feature_header_ptr : Nat := 4

/-- The `feature_header_t` record (LLKERNEL_flash.c lines 37-46).  The
`reserved` padding word carries no information and is omitted. -/
structure FeatureHeader where
  status : Nat
  nb_subsectors : Nat
  rom_address : Nat
  rom_size : Nat
  ram_address : Nat
  ram_size : Nat
  feature_index : Nat
  deriving DecidableEq, Repr

/-- Header of a slot whose subsector has been erased and never programmed:
NOR flash reads as all ones, so every uint32 field is 0xFFFFFFFF.  Its
status is neither the USED nor the REMOVED magic, hence the slot is FREE. -/
def erasedFeatureHeader : FeatureHeader :=
  { status := 4294967295, nb_subsectors := 4294967295, rom_address := 4294967295,
    rom_size := 4294967295, ram_address := 4294967295, ram_size := 4294967295,
    feature_index := 4294967295 }

/-- Build-time configuration (LLKERNEL_flash_configuration.h) together
with the flash-controller geometry contract (flash_controller.h) and the
link-time `kernel_max_nb_dynamic_features`.  `ram_buffer_addr` is the
address of the static `kernel_ram_buffer`. -/
structure Config where
  page_size : Nat
  subsector_size : Nat
  kf_start : Nat
  kf_end : Nat
  ram_buffer_size : Nat
  ram_align : Nat
  ram_buffer_addr : Nat
  max_features : Nat
  deriving DecidableEq, Repr

/-- Models `llkernel_get_kf_area_size` (lines 100-102). -/
def llkernel_get_kf_area_size (c : Config) : Nat := c.kf_end - c.kf_start

/-- Models `llkernel_get_feature_slot_size_rom_bytes` (lines 109-121):
`(area / subsector / max_features) * subsector`, and 0 when
`kernel_max_nb_dynamic_features` is 0. -/
def llkernel_get_feature_slot_size_rom_bytes (c : Config) : Nat :=
  if c.max_features = 0 then 0
  else llkernel_get_kf_area_size c / c.subsector_size / c.max_features * c.subsector_size

/-- Models `llkernel_get_next_aligned_ram_address` (lines 130-133).  The C
computes `(address AND NOT(ALIGN - 1)) + ALIGN`; for the power-of-two
alignments the configuration contract admits, this equals clearing the
remainder modulo ALIGN and adding ALIGN. -/
def llkernel_get_next_aligned_ram_address (c : Config) (address : Nat) : Nat :=
  (address - address % c.ram_align) + c.ram_align

/-- Address of the base of feature slot `i`: the C slot walk starts at
`flash_ctrl_get_kf_start_address()` and advances by the slot size
(`llkernel_get_next_feature`, lines 154-164). -/
def slotAddr (c : Config) (i : Nat) : Nat :=
  c.kf_start + i * llkernel_get_feature_slot_size_rom_bytes c

/-- Sanity conditions on a configuration, matching the flash-controller
contract and the default build options: positive page size, a subsector of
at least 2 bytes, a feature area below the 2^32 address space that holds
at least one subsector and starts above the null address, and enough
headroom that `address + slot-size` sums appearing in the C never wrap. -/
@[reducible] def Config.WF (c : Config) : Prop :=
  0 < c.page_size ∧ 2 ≤ c.subsector_size ∧ 0 < c.kf_start ∧
  c.kf_start + c.subsector_size ≤ c.kf_end ∧ c.kf_end ≤ U32_MOD ∧
  c.kf_end + llkernel_get_feature_slot_size_rom_bytes c ≤ U32_MOD ∧
  0 < c.ram_buffer_size

/-- Models `is_feature_used` (lines 84-86). -/
def is_feature_used (feature_status : Nat) : Bool :=
  decide (LLKERNEL_FEATURE_USED_MAGIC_NUMBER = feature_status)

/-- Models `is_feature_removed` (lines 92-94). -/
def is_feature_removed (feature_status : Nat) : Bool :=
  decide (LLKERNEL_FEATURE_REMOVED_MAGIC_NUMBER = feature_status)

/-- The catalog state: the headers of the visited slots (position order),
plus the module-level globals `nb_features` and `last_feature_ptr`
(lines 58-59).  `last_feature = some i` models
`last_feature_ptr == slotAddr c i`, `none` models NULL. -/
structure KState where
  slots : List FeatureHeader
  nb_features : Nat
  last_feature : Option Nat
  deriving DecidableEq, Repr

/-- Loop body of `llkernel_flash_write` (lines 244-268), which programs
`size` bytes page by page and reports whether every `flash_ctrl_page_write`
returned FLASH_CTRL_OK.  The fuel argument bounds the iteration count;
every call below passes `size` as fuel, which is sufficient because each
iteration consumes `min page remaining ≥ 1` bytes whenever `page > 0`
(with `page = 0` the C itself would never terminate). -/
def llkernel_flash_write_go (writeOk : Nat → Bool) (page : Nat) :
    Nat → Nat → Nat → Bool
  | 0, _, _ => true
  | fuel + 1, addr, remaining =>
    if 0 < remaining then
      let copy_size := min page remaining
      if writeOk addr then
        llkernel_flash_write_go writeOk page fuel (addr + copy_size) (remaining - copy_size)
      else false
    else true

/-- Models `llkernel_flash_write` at the success/failure level. -/
def llkernel_flash_write (writeOk : Nat → Bool) (page flash_start_address size : Nat) : Bool :=
  llkernel_flash_write_go writeOk page size flash_start_address size

/-- Index-compaction rewrite performed by
`LLKERNEL_IMPL_getAllocatedFeaturesCount` (lines 292-314): copy the slot's
first subsector to RAM, patch `feature_index`, erase the subsector and
reprogram it with paged writes.  Returns the header now stored in flash and
the `flash_error_occurred` flag.  On a failed reprogram after a successful
erase the header is left erased; if the erase itself failed the C still
attempts the write, so a successful write leaves the patched header. -/
def rewriteFeatureIndex (c : Config) (eraseOk writeOk : Nat → Bool) (addr : Nat)
    (h : FeatureHeader) (new_index : Nat) : FeatureHeader × Bool :=
  let eok := eraseOk addr
  let wok := llkernel_flash_write writeOk c.page_size addr c.subsector_size
  let h' := if wok then { h with feature_index := new_index }
            else if eok then erasedFeatureHeader else h
  (h', !(eok && wok))

/-- The do-while walk of `LLKERNEL_IMPL_getAllocatedFeaturesCount`
(lines 290-324) over the remaining slots: USED slots are counted (their
index compacted when discrepant, a flash error there ending the walk after
the current iteration), REMOVED slots are skipped, the first FREE slot
stops the scan.  Arguments: remaining headers, position of the first of
them, accumulated `nb_features` and `last_feature`. -/
def countLoop (c : Config) (eraseOk writeOk : Nat → Bool) :
    List FeatureHeader → Nat → Nat → Option Nat →
    List FeatureHeader × Nat × Option Nat
  | [], _, nb, last => ([], nb, last)
  | h :: rest, i, nb, last =>
    if is_feature_used h.status then
      let r :=
        if h.feature_index ≠ nb then
          rewriteFeatureIndex c eraseOk writeOk (slotAddr c i) h nb
        else (h, false)
      if r.2 then (r.1 :: rest, nb + 1, some i)
      else
        let q := countLoop c eraseOk writeOk rest (i + 1) (nb + 1) (some i)
        (r.1 :: q.1, q.2)
    else if is_feature_removed h.status then
      let q := countLoop c eraseOk writeOk rest (i + 1) nb last
      (h :: q.1, q.2)
    else (h :: rest, nb, last)

/-- Models `LLKERNEL_IMPL_getAllocatedFeaturesCount` (lines 277-327):
resets `nb_features` to 0 and `last_feature_ptr` to NULL, walks the slots,
and returns the updated state together with the returned count. -/
def LLKERNEL_IMPL_getAllocatedFeaturesCount (c : Config) (eraseOk writeOk : Nat → Bool)
    (s : KState) : KState × Nat :=
  let r := countLoop c eraseOk writeOk s.slots 0 0 none
  ({ slots := r.1, nb_features := r.2.1, last_feature := r.2.2 }, r.2.1)

/-- Models `llkernel_get_free_feature_slot` (lines 171-183): the first slot
whose status is not USED (REMOVED or FREE both qualify), `none` when every
visited slot is USED (the C walk then runs off the last slot and returns
NULL). -/
def llkernel_get_free_feature_slot : List FeatureHeader → Nat → Option Nat
  | [], _ => none
  | h :: rest, i =>
    if is_feature_used h.status then llkernel_get_free_feature_slot rest (i + 1)
    else some i

/-- The slot walk of `LLKERNEL_IMPL_getFeatureHandle` (lines 338-354):
stops with 0 at the first FREE slot, returns the slot base address of the
USED slot whose `feature_index` matches. -/
def getFeatureHandleLoop (c : Config) : List FeatureHeader → Nat → Nat → Nat
  | [], _, _ => 0
  | h :: rest, i, idx =>
    if ¬ is_feature_used h.status ∧ ¬ is_feature_removed h.status then 0
    else if is_feature_used h.status ∧ h.feature_index = idx then slotAddr c i
    else getFeatureHandleLoop c rest (i + 1) idx

/-- Models `LLKERNEL_IMPL_getFeatureHandle` (lines 330-357).  The int32
argument is converted to uint32 for the range check
`(uint32_t)allocation_index < nb_features`; that conversion is
`allocation_index % 2^32`.  The returned handle is the uint32 bit pattern
of the C int32 result (0 for failure). -/
def LLKERNEL_IMPL_getFeatureHandle (c : Config) (s : KState) (allocation_index : Int) : Nat :=
  let idx_u32 : Nat := (allocation_index % (U32_MOD : Int)).toNat
  if idx_u32 < s.nb_features then getFeatureHandleLoop c s.slots 0 idx_u32 else 0

/-- Slot index denoted by a handle: handles are header addresses, and the
header of slot `j` lives at `slotAddr c j`.  (The C dereferences the handle
directly; the model recovers the slot position instead.) -/
def handleSlotIndex (c : Config) (handle : Nat) : Nat :=
  (handle - c.kf_start) / llkernel_get_feature_slot_size_rom_bytes c

/-- Models `LLKERNEL_IMPL_freeFeature` (lines 386-419).  Iff the handle's
status is USED: the header is copied to the staging buffer with
`status := REMOVED` and `nb_subsectors := 1`, the header's subsector is
erased, and the staged data is programmed back — but with write length
`sizeof(feature_ptr)` (line 409), i.e. the 4 bytes of the pointer type, so
only the `status` word is actually programmed and every other field keeps
the erased value 0xFFFFFFFF.  `nb_features` is decremented (uint32 wrap)
regardless of the two flash results; `last_feature_ptr` is not touched.
When the status is not USED nothing happens at all. -/
def LLKERNEL_IMPL_freeFeature (c : Config) (eraseOk writeOk : Nat → Bool)
    (s : KState) (handle : Nat) : KState :=
  let j := handleSlotIndex c handle
  let h := s.slots.getD j erasedFeatureHeader
  if is_feature_used h.status then
    let eok := eraseOk handle
    let wok := writeOk handle
    let h' :=
      if wok then
        if eok then { erasedFeatureHeader with status := LLKERNEL_FEATURE_REMOVED_MAGIC_NUMBER }
        else { h with status := LLKERNEL_FEATURE_REMOVED_MAGIC_NUMBER }
      else if eok then erasedFeatureHeader
      else h
    { s with slots := s.slots.set j h', nb_features := u32sub s.nb_features 1 }
  else s

/-- Subsector-erase loop of `LLKERNEL_IMPL_allocateFeature` (lines
509-518): from the slot base, erase each subsector while
`address < rom_address + rom_size`, counting `nb_subsectors` before every
attempt and stopping at the first failure.  Returns
(nb_subsectors, address reached, every erase succeeded).  The fuel bounds
the iteration count; the wrapper passes `endAddr`, sufficient whenever the
subsector size is at least 1 (with subsector size 0 the C itself would
never terminate). -/
def eraseSubsectors_go (eraseOk : Nat → Bool) (sub endAddr : Nat) :
    Nat → Nat → Nat → Nat × Nat × Bool
  | 0, addr, nb => (nb, addr, true)
  | fuel + 1, addr, nb =>
    if addr < endAddr then
      if eraseOk addr then eraseSubsectors_go eraseOk sub endAddr fuel (addr + sub) (nb + 1)
      else (nb + 1, addr, false)
    else (nb, addr, true)

/-- Wrapper supplying the fuel for `eraseSubsectors_go`. -/
def eraseSubsectors (eraseOk : Nat → Bool) (sub endAddr addr : Nat) : Nat × Nat × Bool :=
  eraseSubsectors_go eraseOk sub endAddr endAddr addr 0

/-- Effect of the erase loop on the stored headers: every slot whose base
lies in the erased byte range `[start, endAddr)` has its header wiped to
the erased state.  (Slot bases are subsector-aligned whenever the KF start
is, since the slot size is a multiple of the subsector size, so a base in
the range means its whole subsector was erased.) -/
def wipeSlots (c : Config) (slots : List FeatureHeader) (start endAddr : Nat) :
    List FeatureHeader :=
  (List.range slots.length).map fun k =>
    if start ≤ slotAddr c k ∧ slotAddr c k < endAddr then erasedFeatureHeader
    else slots.getD k erasedFeatureHeader

/-- RAM-arena address derivation of `LLKERNEL_IMPL_allocateFeature`
(lines 469-496).  `last_feature` and `slots` are the post-rescan catalog,
`slot_header` the header currently stored in the chosen free slot.
Returns `none` on RAM overflow. -/
def deriveRamAddress (c : Config) (last_feature : Option Nat)
    (slots : List FeatureHeader) (slot_header : FeatureHeader) (size_RAM : Nat) :
    Option Nat :=
  match last_feature with
  | none => some c.ram_buffer_addr
  | some li =>
    if is_feature_removed slot_header.status ∧
       c.ram_buffer_addr ≤ slot_header.ram_address ∧
       slot_header.ram_address < c.ram_buffer_addr + c.ram_buffer_size ∧
       size_RAM ≤ slot_header.ram_size then
      some slot_header.ram_address
    else
      let lh := slots.getD li erasedFeatureHeader
      let r := llkernel_get_next_aligned_ram_address c (lh.ram_address + lh.ram_size)
      if c.ram_buffer_addr + c.ram_buffer_size - 1 < r then none else some r

/-- Models `LLKERNEL_IMPL_allocateFeature` (lines 422-558).  The returned
`Nat` is the uint32 bit pattern of the C int32 result: the slot base
address on success, 0 on every failure path; the initial sentinel -1
corresponds to the pattern 0xFFFFFFFF.  Notable faithful details:
the ROM-size precondition (line 442) compares against
`size_ROM + sizeof(mem_buffer_feature_ptr)` where the operand of `sizeof`
is a pointer, hence adds 4 and not the 32 header bytes (the uint32 sum is
reduced mod 2^32 as in the C); the RAM-overflow test (line 486) only
bounds `current_ram_address` itself by the last byte of the buffer; a
failing precondition returns before the internal catalog rescan runs. -/
def LLKERNEL_IMPL_allocateFeature (c : Config) (eraseOk writeOk : Nat → Bool)
    (s : KState) (size_ROM size_RAM : Nat) : KState × Nat :=
  if c.max_features = 0 ∨
     llkernel_get_feature_slot_size_rom_bytes c <
       (size_ROM + sizeof_feature_header_ptr) % U32_MOD ∨
     c.ram_buffer_size < size_RAM then
    (s, 0)
  else
    let s1 := (LLKERNEL_IMPL_getAllocatedFeaturesCount c eraseOk writeOk s).1
    match llkernel_get_free_feature_slot s1.slots 0 with
    | none => (s1, 0)
    | some j =>
      let current_feature_address := slotAddr c j
      match deriveRamAddress c s1.last_feature s1.slots
              (s1.slots.getD j erasedFeatureHeader) size_RAM with
      | none => (s1, 0)
      | some current_ram_address =>
        let rom_address := current_feature_address + sizeof_feature_header_t
        let er := eraseSubsectors eraseOk c.subsector_size
                    (rom_address + size_ROM) current_feature_address
        let slots2 := wipeSlots c s1.slots current_feature_address er.2.1
        if er.2.2 then
          if writeOk current_feature_address then
            ({ slots := slots2.set j
                 { status := LLKERNEL_FEATURE_USED_MAGIC_NUMBER,
                   nb_subsectors := er.1, rom_address := rom_address,
                   rom_size := size_ROM, ram_address := current_ram_address,
                   ram_size := size_RAM, feature_index := s1.nb_features },
               nb_features := s1.nb_features + 1, last_feature := some j },
             current_feature_address)
          else ({ s1 with slots := slots2 }, 0)
        else ({ s1 with slots := slots2 }, 0)

/-- Result codes of the copy/flush entry points.  Their concrete integer
values come from the external `LLKERNEL_impl.h`; only their distinctness
matters to the code and the claims. -/
inductive LLKStatus where
  | ok
  | error
  deriving DecidableEq, Repr

/-- Streaming state of the copy-to-ROM path: the pending-page tracker
`target_page_address` / `mem_writeBuffer_offset` (lines 54-55), the staging
page `mem_writeBuffer` (line 53) as a byte list, and the programmed flash
pages as an association list from page address to page content (a missing
page reads as erased, all 0xFF). -/
structure CopyState where
  target_page_address : Option Nat
  mem_writeBuffer : List Nat
  mem_writeBuffer_offset : Nat
  flash_pages : List (Nat × List Nat)
  deriving DecidableEq, Repr

/-- Memory-mapped read of one flash page (erased bytes read as 0xFF). -/
def readPage (c : Config) (pages : List (Nat × List Nat)) (addr : Nat) : List Nat :=
  (pages.lookup addr).getD (List.replicate c.page_size 255)

/-- Record the programming of one page. -/
def writePage (pages : List (Nat × List Nat)) (addr : Nat) (content : List Nat) :
    List (Nat × List Nat) :=
  (addr, content) :: pages.filter fun p => p.1 != addr

/-- Overlay `data` into `buf` starting at offset `off` (the staging-buffer
memcpy of line 680). -/
def writeBytes (buf : List Nat) (off : Nat) (data : List Nat) : List Nat :=
  (List.range buf.length).map fun i =>
    if off ≤ i ∧ i < off + data.length then data.getD (i - off) 0 else buf.getD i 0

/-- Models `LLKERNEL_IMPL_flushCopyToROM` (lines 727-746): when a page is
pending, program it and clear the pending tracker whatever the write
result; when none is pending, do nothing and return OK. -/
def LLKERNEL_IMPL_flushCopyToROM (c : Config) (writeOk : Nat → Bool) (s : CopyState) :
    CopyState × LLKStatus :=
  match s.target_page_address with
  | none => (s, LLKStatus.ok)
  | some target =>
    let wok := writeOk target
    ({ s with target_page_address := none, mem_writeBuffer_offset := 0,
              flash_pages :=
                if wok then writePage s.flash_pages target s.mem_writeBuffer
                else s.flash_pages },
     if wok then LLKStatus.ok else LLKStatus.error)

/-- The validation prologue of `LLKERNEL_IMPL_copyToROM` (lines 601-633),
with the uint32 arithmetic of the C made explicit: any of the four checks
turning up true makes the call return LLKERNEL_ERROR before any state is
touched. -/
def copyValidationError (c : Config) (dest size : Nat) : Bool :=
  if dest < c.kf_start ∨ c.kf_end ≤ dest then true
  else if c.kf_end < (dest + size) % U32_MOD then true
  else if llkernel_get_feature_slot_size_rom_bytes c < size then true
  else if llkernel_get_feature_slot_size_rom_bytes c ≠ 0 ∧
          u32sub dest c.kf_start / llkernel_get_feature_slot_size_rom_bytes c ≠
            u32sub ((dest + size) % U32_MOD) c.kf_start /
              llkernel_get_feature_slot_size_rom_bytes c then true
  else false

/-- Carry-over handling of `LLKERNEL_IMPL_copyToROM` (lines 635-653): with
a pending page, a destination offset strictly beyond the buffered bytes but
still inside the page just advances the offset; an offset equal to the
buffered count continues as is; anything else flushes first. -/
def copyCarryOver (c : Config) (writeOk : Nat → Bool) (s : CopyState) (dest : Nat) :
    CopyState × LLKStatus :=
  match s.target_page_address with
  | none => (s, LLKStatus.ok)
  | some target =>
    let new_offset := u32sub dest target
    if s.mem_writeBuffer_offset < new_offset ∧ new_offset < c.page_size then
      ({ s with mem_writeBuffer_offset := new_offset }, LLKStatus.ok)
    else if new_offset ≠ s.mem_writeBuffer_offset then
      LLKERNEL_IMPL_flushCopyToROM c writeOk s
    else (s, LLKStatus.ok)

/-- The per-page streaming loop of `LLKERNEL_IMPL_copyToROM`
(lines 655-716).  A full page is programmed immediately (the C does not
clear the pending tracker there); a partial tail records the pending page.
When no page was pending and the copy starts mid-page, the existing page
content is first read back into the staging buffer.  The fuel bounds the
iteration count; the wrapper passes `size`, sufficient because each
iteration consumes at least one byte whenever `page_size > 0`. -/
def copyLoop_go (c : Config) (writeOk : Nat → Bool) :
    Nat → CopyState → Nat → List Nat → Nat → CopyState × LLKStatus
  | 0, s, _, _, _ => (s, LLKStatus.ok)
  | fuel + 1, s, dest, src, remaining =>
    if 0 < remaining then
      let page_address := dest / c.page_size * c.page_size
      let buffer_offset := dest - page_address
      let copy_size := min (c.page_size - buffer_offset) remaining
      let buf0 :=
        if s.target_page_address = none ∧ buffer_offset ≠ 0 then
          readPage c s.flash_pages page_address
        else s.mem_writeBuffer
      let buf1 := writeBytes buf0 buffer_offset (src.take copy_size)
      if buffer_offset + copy_size = c.page_size then
        if writeOk page_address then
          copyLoop_go c writeOk fuel
            { s with mem_writeBuffer := buf1,
                     flash_pages := writePage s.flash_pages page_address buf1 }
            (dest + copy_size) (src.drop copy_size) (remaining - copy_size)
        else ({ s with mem_writeBuffer := buf1 }, LLKStatus.error)
      else
        copyLoop_go c writeOk fuel
          { s with mem_writeBuffer := buf1,
                   target_page_address := some page_address,
                   mem_writeBuffer_offset := buffer_offset + copy_size }
          (dest + copy_size) (src.drop copy_size) (remaining - copy_size)
    else (s, LLKStatus.ok)

/-- Models `LLKERNEL_IMPL_copyToROM` (lines 588-722): validation, then
carry-over handling, then the streaming loop. -/
def LLKERNEL_IMPL_copyToROM (c : Config) (writeOk : Nat → Bool) (s : CopyState)
    (dest : Nat) (src : List Nat) (size : Nat) : CopyState × LLKStatus :=
  if copyValidationError c dest size then (s, LLKStatus.error)
  else
    let r := copyCarryOver c writeOk s dest
    if r.2 ≠ LLKStatus.ok then r
    else copyLoop_go c writeOk size r.1 dest src size

/-- Specification-level count: number of USED headers met scanning in
position order up to (not including) the first FREE slot. -/
def usedCountSpec : List FeatureHeader → Nat
  | [] => 0
  | h :: rest =>
    if is_feature_used h.status then usedCountSpec rest + 1
    else if is_feature_removed h.status then usedCountSpec rest
    else 0

/-- Specification-level last-used tracker: position of the last USED header
met before the first FREE slot, starting from position `i` with
accumulator `acc`. -/
def lastUsedSpec : List FeatureHeader → Nat → Option Nat → Option Nat
  | [], _, acc => acc
  | h :: rest, i, acc =>
    if is_feature_used h.status then lastUsedSpec rest (i + 1) (some i)
    else if is_feature_removed h.status then lastUsedSpec rest (i + 1) acc
    else acc

/-- Specification-level index compaction: USED headers before the first
FREE slot get consecutive `feature_index` values starting at `n`. -/
def patchSlots : List FeatureHeader → Nat → List FeatureHeader
  | [], _ => []
  | h :: rest, n =>
    if is_feature_used h.status then
      { h with feature_index := n } :: patchSlots rest (n + 1)
    else if is_feature_removed h.status then h :: patchSlots rest n
    else h :: rest

/-- Dense indexing predicate: every USED header before the first FREE slot
carries the feature index equal to its scan ordinal (counted from `n`). -/
def denseFrom : List FeatureHeader → Nat → Bool
  | [], _ => true
  | h :: rest, n =>
    if is_feature_used h.status then
      decide (h.feature_index = n) && denseFrom rest (n + 1)
    else if is_feature_removed h.status then denseFrom rest n
    else true

/-- A catalog state is scan-consistent when the cached globals agree with
what a scan of the stored headers computes and the indices are already
dense — exactly the situation after any error-free
`getAllocatedFeaturesCount`. -/
@[reducible] def ScanConsistent (s : KState) : Prop :=
  denseFrom s.slots 0 = true ∧ s.nb_features = usedCountSpec s.slots ∧
  s.last_feature = lastUsedSpec s.slots 0 none

/-- Concrete configuration used by the witnesses and counterexamples:
the default page (256 B) and subsector (4 KiB) sizes, a 256 KiB feature
area at 0x90000000 split into 4 slots of 64 KiB, and the default 100 KiB
RAM arena (at 0x24000000) with 256-byte alignment.  These are the
parameters of the concrete scenarios in the specification. -/
def cW : Config :=
  { page_size := 256, subsector_size := 4096,
    kf_start := 0x90000000, kf_end := 0x90040000,
    ram_buffer_size := 102400, ram_align := 256,
    ram_buffer_addr := 0x24000000, max_features := 4 }

/-- Fresh catalog: every slot erased, no cached feature. -/
def sFresh : KState :=
  { slots := List.replicate 4 erasedFeatureHeader, nb_features := 0,
    last_feature := none }

/-- A used header in slot 0 of `cW`: RAM region at the arena base. -/
def hdrA : FeatureHeader :=
  { status := LLKERNEL_FEATURE_USED_MAGIC_NUMBER, nb_subsectors := 1,
    rom_address := 0x90000020, rom_size := 1024,
    ram_address := 0x24000000, ram_size := 8192, feature_index := 0 }

/-- A used header in slot 1 of `cW`: RAM region at arena offset 20480. -/
def hdrB : FeatureHeader :=
  { status := LLKERNEL_FEATURE_USED_MAGIC_NUMBER, nb_subsectors := 1,
    rom_address := 0x90010020, rom_size := 1024,
    ram_address := 0x24005000, ram_size := 4096, feature_index := 1 }

/-- Catalog with two used features, for the free/reinstall round trip. -/
def sTwo : KState :=
  { slots := [hdrA, hdrB, erasedFeatureHeader, erasedFeatureHeader],
    nb_features := 2, last_feature := some 1 }

/-- A used header in slot 0 of `cW` with a 40 KiB RAM region. -/
def hdrC : FeatureHeader :=
  { status := LLKERNEL_FEATURE_USED_MAGIC_NUMBER, nb_subsectors := 1,
    rom_address := 0x90000020, rom_size := 1024,
    ram_address := 0x24000000, ram_size := 40960, feature_index := 0 }

/-- A used header in slot 1 of `cW` with a 40 KiB RAM region at arena
offset 41216 (the next aligned address after `hdrC`). -/
def hdrD : FeatureHeader :=
  { status := LLKERNEL_FEATURE_USED_MAGIC_NUMBER, nb_subsectors := 1,
    rom_address := 0x90010020, rom_size := 1024,
    ram_address := 0x2400A100, ram_size := 40960, feature_index := 1 }

/-- Catalog with two used features whose RAM regions fill the first
80 KiB of the arena; the specification's RAM-exhaustion scenario. -/
def sArena : KState :=
  { slots := [hdrC, hdrD, erasedFeatureHeader, erasedFeatureHeader],
    nb_features := 2, last_feature := some 1 }

/-- Streaming state with no pending page and empty programmed flash. -/
def csIdle : CopyState :=
  { target_page_address := none, mem_writeBuffer := List.replicate 256 255,
    mem_writeBuffer_offset := 0, flash_pages := [] }

/-- Streaming state with a pending partially filled page. -/
def csPending : CopyState :=
  { target_page_address := some 0x90001000,
    mem_writeBuffer := List.replicate 256 0,
    mem_writeBuffer_offset := 16, flash_pages := [] }

/-- Catalog with one used feature in slot 0, dense and scan-consistent. -/
def sOne : KState :=
  { slots := [hdrA, erasedFeatureHeader, erasedFeatureHeader, erasedFeatureHeader],
    nb_features := 1, last_feature := some 0 }

/-! Helper lemmas about the scan loop. -/

theorem llkernel_flash_write_go_true (page : Nat) :
    ∀ fuel addr remaining,
      llkernel_flash_write_go (fun _ => true) page fuel addr remaining = true := by
  intro fuel
  induction fuel with
  | zero => intro addr remaining; rfl
  | succ n ih =>
    intro addr remaining
    simp only [llkernel_flash_write_go]
    split
    · exact ih _ _
    · rfl

theorem rewriteFeatureIndex_true (c : Config) (addr : Nat) (h : FeatureHeader)
    (new_index : Nat) :
    rewriteFeatureIndex c (fun _ => true) (fun _ => true) addr h new_index =
      ({ h with feature_index := new_index }, false) := by
  simp [rewriteFeatureIndex, llkernel_flash_write, llkernel_flash_write_go_true]

theorem countLoop_true (c : Config) :
    ∀ (slots : List FeatureHeader) (i nb : Nat) (last : Option Nat),
      countLoop c (fun _ => true) (fun _ => true) slots i nb last =
        (patchSlots slots nb, nb + usedCountSpec slots, lastUsedSpec slots i last) := by
  intro slots
  induction slots with
  | nil => intro i nb last; simp [countLoop, patchSlots, usedCountSpec, lastUsedSpec]
  | cons h rest ih =>
    intro i nb last
    simp only [countLoop, patchSlots, usedCountSpec, lastUsedSpec]
    by_cases hu : is_feature_used h.status = true
    · simp only [hu, if_true]
      by_cases hidx : h.feature_index = nb
      · have hcond : ¬ (h.feature_index ≠ nb) := by simp [hidx]
        simp only [if_neg hcond, ih]
        have hh : { h with feature_index := nb } = h := by
          cases h; simp_all
        simp [hh]
        omega
      · simp only [if_pos hidx, rewriteFeatureIndex_true, ih]
        simp
        omega
    · simp only [hu, if_false, Bool.false_eq_true]
      by_cases hr : is_feature_removed h.status = true
      · simp only [hr, if_true, ih]
      · simp [hr]

theorem countLoop_dense (c : Config) (eraseOk writeOk : Nat → Bool) :
    ∀ (slots : List FeatureHeader) (i nb : Nat) (last : Option Nat),
      denseFrom slots nb = true →
      countLoop c eraseOk writeOk slots i nb last =
        (slots, nb + usedCountSpec slots, lastUsedSpec slots i last) := by
  intro slots
  induction slots with
  | nil => intro i nb last _; simp [countLoop, usedCountSpec, lastUsedSpec]
  | cons h rest ih =>
    intro i nb last hdense
    simp only [countLoop, usedCountSpec, lastUsedSpec]
    by_cases hu : is_feature_used h.status = true
    · simp only [denseFrom, hu, if_true, Bool.and_eq_true, decide_eq_true_eq] at hdense
      obtain ⟨hidx, hdrest⟩ := hdense
      have hcond : ¬ (h.feature_index ≠ nb) := by simp [hidx]
      simp only [hu, if_true, if_neg hcond, ih _ _ _ hdrest]
      simp
      omega
    · simp only [hu, if_false, Bool.false_eq_true]
      by_cases hr : is_feature_removed h.status = true
      · simp only [denseFrom, hu, hr, if_true, Bool.false_eq_true, if_false] at hdense
        simp only [hr, if_true, ih _ _ _ hdense]
      · simp [hr]

theorem count_consistent (c : Config) (eraseOk writeOk : Nat → Bool) (s : KState)
    (hcons : ScanConsistent s) :
    LLKERNEL_IMPL_getAllocatedFeaturesCount c eraseOk writeOk s = (s, s.nb_features) := by
  obtain ⟨hdense, hnb, hlast⟩ := hcons
  simp only [LLKERNEL_IMPL_getAllocatedFeaturesCount, countLoop_dense c eraseOk writeOk _ _ _ _ hdense]
  cases s with
  | mk slots nb last =>
    simp only at hnb hlast ⊢
    simp [hnb, hlast]

theorem patchSlots_status (d : FeatureHeader) :
    ∀ (slots : List FeatureHeader) (n k : Nat),
      ((patchSlots slots n).getD k d).status = (slots.getD k d).status := by
  intro slots
  induction slots with
  | nil => intro n k; simp [patchSlots]
  | cons h rest ih =>
    intro n k
    by_cases hu : is_feature_used h.status = true
    · simp only [patchSlots, hu, if_true]
      cases k with
      | zero => rfl
      | succ m => rw [List.getD_cons_succ, List.getD_cons_succ]; exact ih _ _
    · by_cases hr : is_feature_removed h.status = true
      · simp only [patchSlots, hu, hr, Bool.false_eq_true, if_false, if_true]
        cases k with
        | zero => rfl
        | succ m => rw [List.getD_cons_succ, List.getD_cons_succ]; exact ih _ _
      · simp [patchSlots, hu, hr]

theorem denseFrom_patchSlots :
    ∀ (slots : List FeatureHeader) (n : Nat), denseFrom (patchSlots slots n) n = true := by
  intro slots
  induction slots with
  | nil => intro n; rfl
  | cons h rest ih =>
    intro n
    by_cases hu : is_feature_used h.status = true
    · have hu' : is_feature_used ({ h with feature_index := n } : FeatureHeader).status = true := hu
      simp [patchSlots, hu, denseFrom, hu', ih]
    · by_cases hr : is_feature_removed h.status = true
      · simp [patchSlots, hu, hr, denseFrom, ih]
      · simp [patchSlots, hu, hr, denseFrom]

theorem lastUsedSpec_some :
    ∀ (slots : List FeatureHeader) (i j : Nat),
      lastUsedSpec slots i (some j) ≠ none := by
  intro slots
  induction slots with
  | nil => intro i j; simp [lastUsedSpec]
  | cons h rest ih =>
    intro i j
    simp only [lastUsedSpec]
    split
    · exact ih _ _
    · split
      · exact ih _ _
      · simp

theorem lastUsedSpec_none_iff :
    ∀ (slots : List FeatureHeader) (i : Nat),
      lastUsedSpec slots i none = none ↔ usedCountSpec slots = 0 := by
  intro slots
  induction slots with
  | nil => intro i; simp [lastUsedSpec, usedCountSpec]
  | cons h rest ih =>
    intro i
    simp only [lastUsedSpec, usedCountSpec]
    split
    · simp [lastUsedSpec_some]
    · split
      · exact ih _
      · simp

theorem lastUsedSpec_used (d : FeatureHeader) :
    ∀ (slots : List FeatureHeader) (i : Nat) (acc : Option Nat) (j : Nat),
      lastUsedSpec slots i acc = some j →
      acc = some j ∨
        ∃ k, j = i + k ∧ k < slots.length ∧
          is_feature_used ((slots.getD k d).status) = true := by
  intro slots
  induction slots with
  | nil => intro i acc j hj; exact Or.inl hj
  | cons h rest ih =>
    intro i acc j hj
    simp only [lastUsedSpec] at hj
    by_cases hu : is_feature_used h.status = true
    · rw [if_pos hu] at hj
      rcases ih (i + 1) (some i) j hj with hacc | ⟨k, hk, hklen, hkused⟩
      · have hij : j = i := by
          cases hacc; rfl
        right
        refine ⟨0, by omega, by simp, ?_⟩
        simpa using hu
      · right
        refine ⟨k + 1, by omega, by simpa using hklen, ?_⟩
        rw [List.getD_cons_succ]
        exact hkused
    · rw [if_neg hu] at hj
      by_cases hr : is_feature_removed h.status = true
      · rw [if_pos hr] at hj
        rcases ih (i + 1) acc j hj with hacc | ⟨k, hk, hklen, hkused⟩
        · exact Or.inl hacc
        · right
          refine ⟨k + 1, by omega, by simpa using hklen, ?_⟩
          rw [List.getD_cons_succ]
          exact hkused
      · rw [if_neg hr] at hj
        exact Or.inl hj

theorem u32sub_of_le (a b : Nat) (hba : b ≤ a) (ha : a < U32_MOD) :
    u32sub a b = a - b := by
  have hb : b < U32_MOD := lt_of_le_of_lt hba ha
  simp only [u32sub, U32_MOD] at *
  omega

theorem free_slot_lt :
    ∀ (slots : List FeatureHeader) (i j : Nat),
      llkernel_get_free_feature_slot slots i = some j → i ≤ j ∧ j < i + slots.length := by
  intro slots
  induction slots with
  | nil => intro i j hj; simp [llkernel_get_free_feature_slot] at hj
  | cons h rest ih =>
    intro i j hj
    simp only [llkernel_get_free_feature_slot] at hj
    split at hj
    · have := ih (i + 1) j hj
      constructor <;> [omega; (simp; omega)]
    · cases hj
      simp

theorem slot_size_mul (c : Config) :
    ∃ q, llkernel_get_feature_slot_size_rom_bytes c = q * c.subsector_size := by
  unfold llkernel_get_feature_slot_size_rom_bytes
  split
  · exact ⟨0, by simp⟩
  · exact ⟨_, rfl⟩

/-- Claim C6: `LLKERNEL_IMPL_getAllocatedFeaturesCount` returns the number
of USED-magic headers found scanning the slots in position order up to the
first FREE slot, and after a successful scan (here: one in which every
flash call succeeds) the USED headers carry `feature_index` values equal to
their scan ordinals 0, 1, ..., nb_features-1, any discrepant index having
been rewritten in place. -/
theorem C6_count_spec (c : Config) (s : KState) :
    (LLKERNEL_IMPL_getAllocatedFeaturesCount c (fun _ => true) (fun _ => true) s).2 =
      usedCountSpec s.slots ∧
    (LLKERNEL_IMPL_getAllocatedFeaturesCount c (fun _ => true) (fun _ => true) s).1.nb_features =
      usedCountSpec s.slots ∧
    denseFrom
      (LLKERNEL_IMPL_getAllocatedFeaturesCount c (fun _ => true) (fun _ => true) s).1.slots
      0 = true := by
  simp only [LLKERNEL_IMPL_getAllocatedFeaturesCount, countLoop_true]
  refine ⟨by simp, by simp, ?_⟩
  simpa using denseFrom_patchSlots s.slots 0

/-- Claim C3 (amended): the catalog invariant is restored by every
error-free rescan.  After `LLKERNEL_IMPL_getAllocatedFeaturesCount` in
which every flash call succeeds, `last_feature_ptr` is null iff
`nb_features` is 0, and when non-null it addresses a header whose status is
the USED magic.  (The unamended claim — the invariant holding after every
catalog operation — fails after `LLKERNEL_IMPL_freeFeature`, which
decrements `nb_features` without clearing `last_feature_ptr`; see the
counterexample.) -/
theorem C3_invariant_after_count (c : Config) (s : KState) :
    ((LLKERNEL_IMPL_getAllocatedFeaturesCount c (fun _ => true) (fun _ => true)
        s).1.last_feature = none ↔
      (LLKERNEL_IMPL_getAllocatedFeaturesCount c (fun _ => true) (fun _ => true)
        s).1.nb_features = 0) ∧
    ∀ j, (LLKERNEL_IMPL_getAllocatedFeaturesCount c (fun _ => true) (fun _ => true)
        s).1.last_feature = some j →
      is_feature_used
        (((LLKERNEL_IMPL_getAllocatedFeaturesCount c (fun _ => true) (fun _ => true)
            s).1.slots.getD j erasedFeatureHeader).status) = true := by
  simp only [LLKERNEL_IMPL_getAllocatedFeaturesCount, countLoop_true]
  constructor
  · simpa using lastUsedSpec_none_iff s.slots 0
  · intro j hj
    rcases lastUsedSpec_used erasedFeatureHeader s.slots 0 none j hj with hacc | ⟨k, hk, _, hkused⟩
    · cases hacc
    · simp only [patchSlots_status]
      have : j = k := by omega
      rw [this]
      exact hkused

/-- Claim C3 (counterexample): the claimed invariant does not hold after
every sequence of catalog operations.  Starting from a fresh catalog,
`allocateFeature` installs one feature in slot 0, and `freeFeature` on its
handle leaves `nb_features = 0` while `last_feature_ptr` still addresses
slot 0 — whose header, moreover, is now REMOVED, not USED. -/
theorem C3_counterexample :
    (LLKERNEL_IMPL_freeFeature cW (fun _ => true) (fun _ => true)
        (LLKERNEL_IMPL_allocateFeature cW (fun _ => true) (fun _ => true)
          sFresh 1024 8192).1 0x90000000).nb_features = 0 ∧
    (LLKERNEL_IMPL_freeFeature cW (fun _ => true) (fun _ => true)
        (LLKERNEL_IMPL_allocateFeature cW (fun _ => true) (fun _ => true)
          sFresh 1024 8192).1 0x90000000).last_feature = some 0 ∧
    is_feature_used
      (((LLKERNEL_IMPL_freeFeature cW (fun _ => true) (fun _ => true)
          (LLKERNEL_IMPL_allocateFeature cW (fun _ => true) (fun _ => true)
            sFresh 1024 8192).1 0x90000000).slots.getD 0 erasedFeatureHeader).status) =
      false := by
  decide

/-- Claim C8: `LLKERNEL_IMPL_flushCopyToROM` is idempotent when no page is
pending: with `target_page_address` null it returns OK and changes
nothing, and since every flush clears `target_page_address`, a second call
immediately following any flush is a no-op that returns OK. -/
theorem C8_flush_idempotent (c : Config) (writeOk : Nat → Bool) (s : CopyState) :
    (s.target_page_address = none →
      LLKERNEL_IMPL_flushCopyToROM c writeOk s = (s, LLKStatus.ok)) ∧
    (LLKERNEL_IMPL_flushCopyToROM c writeOk s).1.target_page_address = none ∧
    LLKERNEL_IMPL_flushCopyToROM c writeOk
        (LLKERNEL_IMPL_flushCopyToROM c writeOk s).1 =
      ((LLKERNEL_IMPL_flushCopyToROM c writeOk s).1, LLKStatus.ok) := by
  refine ⟨fun h => ?_, ?_, ?_⟩
  · simp [LLKERNEL_IMPL_flushCopyToROM, h]
  · cases htp : s.target_page_address <;> simp [LLKERNEL_IMPL_flushCopyToROM, htp]
  · cases htp : s.target_page_address <;> simp [LLKERNEL_IMPL_flushCopyToROM, htp]

/-- Claim C8 witness: concrete flush of a pending page followed by a
second flush which is a no-op returning OK. -/
theorem C8_flush_idempotent_witness :
    ((csPending.target_page_address = none →
      LLKERNEL_IMPL_flushCopyToROM cW (fun _ => true) csPending = (csPending, LLKStatus.ok)) ∧
    (LLKERNEL_IMPL_flushCopyToROM cW (fun _ => true) csPending).1.target_page_address = none ∧
    LLKERNEL_IMPL_flushCopyToROM cW (fun _ => true)
        (LLKERNEL_IMPL_flushCopyToROM cW (fun _ => true) csPending).1 =
      ((LLKERNEL_IMPL_flushCopyToROM cW (fun _ => true) csPending).1, LLKStatus.ok)) ∧
    LLKERNEL_IMPL_flushCopyToROM cW (fun _ => true) csIdle = (csIdle, LLKStatus.ok) :=
  ⟨C8_flush_idempotent cW (fun _ => true) csPending,
   (C8_flush_idempotent cW (fun _ => true) csIdle).1 rfl⟩

/-- Claim C9: `LLKERNEL_IMPL_freeFeature` is not atomic on flash errors.
Whenever the handle's status is the USED magic, `nb_features` is
decremented by exactly 1 (uint32 decrement; equal to `nb_features - 1`
for any positive in-range count) for every outcome of the subsector erase
and of the header page write, and `last_feature_ptr` is left as is;
whenever the status is not the USED magic (REMOVED or FREE), the call
changes no state at all. -/
theorem C9_free_feature_paths (c : Config) (eraseOk writeOk : Nat → Bool)
    (s : KState) (handle : Nat) :
    (is_feature_used
        ((s.slots.getD (handleSlotIndex c handle) erasedFeatureHeader).status) = true →
      (LLKERNEL_IMPL_freeFeature c eraseOk writeOk s handle).nb_features =
        u32sub s.nb_features 1 ∧
      (0 < s.nb_features → s.nb_features < U32_MOD →
        (LLKERNEL_IMPL_freeFeature c eraseOk writeOk s handle).nb_features =
          s.nb_features - 1) ∧
      (LLKERNEL_IMPL_freeFeature c eraseOk writeOk s handle).last_feature =
        s.last_feature) ∧
    (is_feature_used
        ((s.slots.getD (handleSlotIndex c handle) erasedFeatureHeader).status) = false →
      LLKERNEL_IMPL_freeFeature c eraseOk writeOk s handle = s) := by
  refine ⟨fun hused => ⟨?_, fun hpos hlt => ?_, ?_⟩, fun hunused => ?_⟩
  · simp only [LLKERNEL_IMPL_freeFeature, hused, if_true]
  · simp only [LLKERNEL_IMPL_freeFeature, hused, if_true]
    show u32sub s.nb_features 1 = s.nb_features - 1
    simp only [u32sub, U32_MOD] at hlt ⊢
    omega
  · simp only [LLKERNEL_IMPL_freeFeature, hused, if_true]
  · have hcond :
        ¬ (is_feature_used
            ((s.slots.getD (handleSlotIndex c handle) erasedFeatureHeader).status) = true) := by
      rw [hunused]
      simp
    simp only [LLKERNEL_IMPL_freeFeature]
    rw [if_neg hcond]

/-- Claim C9 witness: a used slot 1 freed with both flash calls failing
still decrements the count from 2 to 1 and keeps `last_feature_ptr`; a
REMOVED or FREE handle leaves the state untouched. -/
theorem C9_free_feature_paths_witness :
    (is_feature_used
        ((sTwo.slots.getD (handleSlotIndex cW 0x90010000) erasedFeatureHeader).status) = true ∧
      (LLKERNEL_IMPL_freeFeature cW (fun _ => false) (fun _ => false)
          sTwo 0x90010000).nb_features = u32sub sTwo.nb_features 1 ∧
      (LLKERNEL_IMPL_freeFeature cW (fun _ => false) (fun _ => false)
          sTwo 0x90010000).last_feature = sTwo.last_feature) ∧
    (is_feature_used
        ((sTwo.slots.getD (handleSlotIndex cW 0x90020000) erasedFeatureHeader).status) = false ∧
      LLKERNEL_IMPL_freeFeature cW (fun _ => false) (fun _ => false) sTwo 0x90020000 = sTwo) :=
  ⟨⟨by decide,
    ((C9_free_feature_paths cW (fun _ => false) (fun _ => false) sTwo 0x90010000).1
      (by decide)).1,
    ((C9_free_feature_paths cW (fun _ => false) (fun _ => false) sTwo 0x90010000).1
      (by decide)).2.2⟩,
   ⟨by decide,
    (C9_free_feature_paths cW (fun _ => false) (fun _ => false) sTwo 0x90020000).2
      (by decide)⟩⟩

/-- Claim C10: for every negative `allocation_index` (in the int32 range),
`LLKERNEL_IMPL_getFeatureHandle` returns 0 whenever `nb_features` is below
2^31: the signed index is converted to unsigned for the range check, so
every negative input fails the `index < nb_features` test and the slot
walk never runs. -/
theorem C10_negative_index (c : Config) (s : KState) (allocation_index : Int)
    (hneg : allocation_index < 0) (hrange : -2147483648 ≤ allocation_index)
    (hnb : s.nb_features < 2147483648) :
    LLKERNEL_IMPL_getFeatureHandle c s allocation_index = 0 := by
  have hidx : 2147483648 ≤ ((allocation_index % (U32_MOD : Int)).toNat) := by
    simp only [U32_MOD]
    omega
  simp only [LLKERNEL_IMPL_getFeatureHandle]
  rw [if_neg (by omega)]

/-- Claim C10 witness: index -1 on a one-feature catalog returns 0. -/
theorem C10_negative_index_witness :
    ((-1 : Int) < 0 ∧ (-2147483648 : Int) ≤ -1 ∧ sOne.nb_features < 2147483648) ∧
    LLKERNEL_IMPL_getFeatureHandle cW sOne (-1) = 0 :=
  ⟨⟨by decide, by decide, by decide⟩,
   C10_negative_index cW sOne (-1) (by decide) (by decide) (by decide)⟩

/-- Claim C1 (code bug): the ROM-size precondition of
`LLKERNEL_IMPL_allocateFeature` is checked against
`sizeof(mem_buffer_feature_ptr)` — the 4 bytes of a pointer — instead of
the 32-byte feature header.  With the 64 KiB slots of `cW`, a request of
`size_ROM = slot_size - sizeof(header) + 1 = 65505` must fail ROM_TOO_LARGE
according to the claim, yet the call succeeds (it returns the slot 0 base
address 0x90000000, not 0), and the resulting USED header describes a ROM
payload `[rom_address, rom_address + rom_size)` whose end exceeds the slot
end by one byte, with 17 subsectors erased although a slot only has 16. -/
theorem C1_rom_check_at_failing_input :
    llkernel_get_feature_slot_size_rom_bytes cW <
      65505 + sizeof_feature_header_t ∧
    (LLKERNEL_IMPL_allocateFeature cW (fun _ => true) (fun _ => true)
        sFresh 65505 0).2 = 0x90000000 ∧
    ((LLKERNEL_IMPL_allocateFeature cW (fun _ => true) (fun _ => true)
        sFresh 65505 0).1.slots.getD 0 erasedFeatureHeader).rom_address +
      ((LLKERNEL_IMPL_allocateFeature cW (fun _ => true) (fun _ => true)
        sFresh 65505 0).1.slots.getD 0 erasedFeatureHeader).rom_size =
      0x90000000 + llkernel_get_feature_slot_size_rom_bytes cW + 1 ∧
    ((LLKERNEL_IMPL_allocateFeature cW (fun _ => true) (fun _ => true)
        sFresh 65505 0).1.slots.getD 0 erasedFeatureHeader).nb_subsectors = 17 := by
  decide

/-- Claim C2 (code bug): `LLKERNEL_IMPL_freeFeature` programs the REMOVED
header with write length `sizeof(feature_ptr)` = 4, so only the status
word is written and the prior `ram_address`/`ram_size` are NOT preserved:
after freeing the slot 1 feature of `sTwo` (RAM region 0x24005000, 4096
bytes) the stored header has both fields erased to 0xFFFFFFFF, and the
subsequent `allocateFeature` that lands on that slot with
`size_RAM = 4096 ≤ 4096` fails the arena reuse bounds check and derives a
fresh region: the new header's `ram_address` is 0x24002100, not the prior
0x24005000. -/
theorem C2_free_preserves_ram_at_failing_input :
    ((LLKERNEL_IMPL_freeFeature cW (fun _ => true) (fun _ => true)
        sTwo 0x90010000).slots.getD 1 erasedFeatureHeader).status =
      LLKERNEL_FEATURE_REMOVED_MAGIC_NUMBER ∧
    ((LLKERNEL_IMPL_freeFeature cW (fun _ => true) (fun _ => true)
        sTwo 0x90010000).slots.getD 1 erasedFeatureHeader).ram_address = 4294967295 ∧
    ((LLKERNEL_IMPL_freeFeature cW (fun _ => true) (fun _ => true)
        sTwo 0x90010000).slots.getD 1 erasedFeatureHeader).ram_size = 4294967295 ∧
    llkernel_get_free_feature_slot
      (LLKERNEL_IMPL_freeFeature cW (fun _ => true) (fun _ => true)
        sTwo 0x90010000).slots 0 = some 1 ∧
    ((LLKERNEL_IMPL_allocateFeature cW (fun _ => true) (fun _ => true)
        (LLKERNEL_IMPL_freeFeature cW (fun _ => true) (fun _ => true)
          sTwo 0x90010000) 1024 4096).1.slots.getD 1 erasedFeatureHeader).ram_address =
      0x24002100 ∧
    hdrB.ram_address = 0x24005000 := by
  decide

/-- Claim C4 (code bug): the RAM-overflow test of
`LLKERNEL_IMPL_allocateFeature` only bounds `current_ram_address` by the
last byte of `kernel_ram_buffer` and ignores `size_RAM`, so a USED header
can describe a RAM region overrunning the buffer.  From `sArena` (two
40 KiB regions filling the arena to offset 82176 of 102400), a third
40 KiB request must fail RAM_OVERFLOW according to the claim, yet the call
succeeds (returning the slot 2 base address) and produces a USED header
whose region `[ram_address, ram_address + ram_size)` ends 20992 bytes past
the buffer end — while its `ram_address` is still RAM_ALIGN-aligned. -/
theorem C4_ram_overflow_at_failing_input :
    (LLKERNEL_IMPL_allocateFeature cW (fun _ => true) (fun _ => true)
        sArena 1024 40960).2 = 0x90020000 ∧
    ((LLKERNEL_IMPL_allocateFeature cW (fun _ => true) (fun _ => true)
        sArena 1024 40960).1.slots.getD 2 erasedFeatureHeader).status =
      LLKERNEL_FEATURE_USED_MAGIC_NUMBER ∧
    ((LLKERNEL_IMPL_allocateFeature cW (fun _ => true) (fun _ => true)
        sArena 1024 40960).1.slots.getD 2 erasedFeatureHeader).ram_address %
      cW.ram_align = 0 ∧
    ((LLKERNEL_IMPL_allocateFeature cW (fun _ => true) (fun _ => true)
        sArena 1024 40960).1.slots.getD 2 erasedFeatureHeader).ram_address +
      ((LLKERNEL_IMPL_allocateFeature cW (fun _ => true) (fun _ => true)
        sArena 1024 40960).1.slots.getD 2 erasedFeatureHeader).ram_size =
      cW.ram_buffer_addr + cW.ram_buffer_size + 20992 := by
  decide

/-- Claim C5: `LLKERNEL_IMPL_copyToROM` returns ERROR without mutating any
streaming state (`target_page_address`, `mem_writeBuffer`, the write
offset) and without touching flash whenever: `dest` is outside
`[kf_start, kf_end)`; or `dest + size` exceeds `kf_end`; or `size` exceeds
the slot size; or the slot index of `dest` differs from the slot index of
`dest + size` (a range spanning two slots). -/
theorem C5_copy_validation_errors (c : Config) (hWF : c.WF) (writeOk : Nat → Bool)
    (s : CopyState) (dest : Nat) (src : List Nat) (size : Nat)
    (hdest : dest < U32_MOD)
    (hbad : dest < c.kf_start ∨ c.kf_end ≤ dest ∨ c.kf_end < dest + size ∨
            llkernel_get_feature_slot_size_rom_bytes c < size ∨
            (llkernel_get_feature_slot_size_rom_bytes c ≠ 0 ∧
             (dest - c.kf_start) / llkernel_get_feature_slot_size_rom_bytes c ≠
               (dest + size - c.kf_start) / llkernel_get_feature_slot_size_rom_bytes c)) :
    LLKERNEL_IMPL_copyToROM c writeOk s dest src size = (s, LLKStatus.error) := by
  obtain ⟨hpage, hsub, hkfpos, harea, hkfle, hnowrap, hram⟩ := hWF
  have hval : copyValidationError c dest size = true := by
    unfold copyValidationError
    by_cases h1 : dest < c.kf_start ∨ c.kf_end ≤ dest
    · rw [if_pos h1]
    · rw [if_neg h1]
      push_neg at h1
      obtain ⟨hge, hlt⟩ := h1
      by_cases h3 : llkernel_get_feature_slot_size_rom_bytes c < size
      · by_cases h2 : c.kf_end < (dest + size) % U32_MOD
        · rw [if_pos h2]
        · rw [if_neg h2, if_pos h3]
      · push_neg at h3
        have hnw : dest + size < U32_MOD := by omega
        have hmod : (dest + size) % U32_MOD = dest + size := Nat.mod_eq_of_lt hnw
        rw [hmod]
        rcases hbad with hb | hb | hb | hb | hb
        · omega
        · omega
        · rw [if_pos hb]
        · omega
        · by_cases h2 : c.kf_end < dest + size
          · rw [if_pos h2]
          · have e1 : u32sub dest c.kf_start = dest - c.kf_start :=
              u32sub_of_le _ _ hge hdest
            have e2 : u32sub (dest + size) c.kf_start = dest + size - c.kf_start :=
              u32sub_of_le _ _ (by omega) hnw
            rw [if_neg h2, if_neg (by omega), e1, e2, if_pos hb]
  simp [LLKERNEL_IMPL_copyToROM, hval]

/-- Claim C5 witness: a destination one byte below the feature area is
rejected with no state change, as is a 32-byte range crossing the boundary
between slot 0 and slot 1. -/
theorem C5_copy_validation_errors_witness :
    (cW.WF ∧ (0x8FFFFFFF : Nat) < U32_MOD ∧ 0x8FFFFFFF < cW.kf_start) ∧
    LLKERNEL_IMPL_copyToROM cW (fun _ => true) csIdle 0x8FFFFFFF
        (List.replicate 8 0) 8 = (csIdle, LLKStatus.error) ∧
    LLKERNEL_IMPL_copyToROM cW (fun _ => true) csIdle 0x9000FFF0
        (List.replicate 32 0) 32 = (csIdle, LLKStatus.error) :=
  ⟨⟨by decide, by decide, by decide⟩,
   C5_copy_validation_errors cW (by decide) (fun _ => true) csIdle 0x8FFFFFFF
     (List.replicate 8 0) 8 (by decide) (Or.inl (by decide)),
   C5_copy_validation_errors cW (by decide) (fun _ => true) csIdle 0x9000FFF0
     (List.replicate 32 0) 32 (by decide)
     (Or.inr (Or.inr (Or.inr (Or.inr (by decide)))))⟩

/-- Claim C7: `LLKERNEL_IMPL_allocateFeature` never returns -1 (the uint32
bit pattern 0xFFFFFFFF of the initial int32 sentinel).  From a
scan-consistent catalog whose slots fit inside the feature area: every
failure — in particular a subsector-erase or header-page-write failure —
returns 0 and leaves `nb_features` and `last_feature_ptr` exactly as they
were (no increment, no update); success returns the base address of the
free slot as the handle, increments `nb_features` by exactly 1 and sets
`last_feature_ptr` to that slot. -/
theorem C7_allocate_result (c : Config) (hWF : c.WF) (s : KState)
    (hcons : ScanConsistent s)
    (hgeom : slotAddr c s.slots.length ≤ c.kf_end)
    (eraseOk writeOk : Nat → Bool) (size_ROM size_RAM : Nat) :
    (LLKERNEL_IMPL_allocateFeature c eraseOk writeOk s size_ROM size_RAM).2 ≠
      U32_MOD - 1 ∧
    ((LLKERNEL_IMPL_allocateFeature c eraseOk writeOk s size_ROM size_RAM).2 = 0 →
      (LLKERNEL_IMPL_allocateFeature c eraseOk writeOk s size_ROM size_RAM).1.nb_features =
        s.nb_features ∧
      (LLKERNEL_IMPL_allocateFeature c eraseOk writeOk s size_ROM size_RAM).1.last_feature =
        s.last_feature) ∧
    ((LLKERNEL_IMPL_allocateFeature c eraseOk writeOk s size_ROM size_RAM).2 ≠ 0 →
      ∃ j, llkernel_get_free_feature_slot s.slots 0 = some j ∧
        (LLKERNEL_IMPL_allocateFeature c eraseOk writeOk s size_ROM size_RAM).2 =
          slotAddr c j ∧
        (LLKERNEL_IMPL_allocateFeature c eraseOk writeOk s size_ROM size_RAM).1.nb_features =
          s.nb_features + 1 ∧
        (LLKERNEL_IMPL_allocateFeature c eraseOk writeOk s size_ROM size_RAM).1.last_feature =
          some j) := by
  obtain ⟨hpage, hsub, hkfpos, harea, hkfle, hnowrap, hram⟩ := hWF
  have hU1 : U32_MOD - 1 = 4294967295 := rfl
  have hU2 : U32_MOD = 4294967296 := rfl
  have hcount := count_consistent c eraseOk writeOk s hcons
  simp only [LLKERNEL_IMPL_allocateFeature, hcount]
  split
  · exact ⟨by simp [U32_MOD], fun _ => by constructor <;> first | rfl | trivial,
      fun hne => by simp at hne⟩
  · rcases hfs : llkernel_get_free_feature_slot s.slots 0 with _ | j
    · simp only [hfs]
      exact ⟨by simp [U32_MOD], fun _ => by constructor <;> first | rfl | trivial,
        fun hne => by simp at hne⟩
    · have hjlen : j < s.slots.length := by
        have := free_slot_lt s.slots 0 j hfs
        omega
      have hbase : slotAddr c j ≠ U32_MOD - 1 := by
        intro hcontra
        rw [hU1] at hcontra
        rw [hU2] at hkfle
        obtain ⟨q, hq⟩ := slot_size_mul c
        rcases Nat.eq_zero_or_pos (llkernel_get_feature_slot_size_rom_bytes c) with hz | hpos
        · rw [slotAddr, hz, Nat.mul_zero, Nat.add_zero] at hcontra
          omega
        · have hqpos : 0 < q := by
            rcases Nat.eq_zero_or_pos q with h0 | h0
            · rw [h0, Nat.zero_mul] at hq
              omega
            · exact h0
          have hslotge : c.subsector_size ≤ llkernel_get_feature_slot_size_rom_bytes c := by
            rw [hq]
            exact Nat.le_mul_of_pos_left _ hqpos
          have hmono : slotAddr c (j + 1) ≤ slotAddr c s.slots.length := by
            unfold slotAddr
            exact Nat.add_le_add_left (Nat.mul_le_mul_right _ hjlen) _
          have hsplit : slotAddr c (j + 1) =
              slotAddr c j + llkernel_get_feature_slot_size_rom_bytes c := by
            unfold slotAddr
            ring
          rw [hsplit] at hmono
          omega
      have hbasepos : 0 < slotAddr c j := by
        unfold slotAddr
        omega
      simp only [hfs]
      rcases hrd : deriveRamAddress c s.last_feature s.slots
          (s.slots.getD j erasedFeatureHeader) size_RAM with _ | ram
      · simp only [hrd]
        exact ⟨by simp [U32_MOD], fun _ => by constructor <;> first | rfl | trivial,
          fun hne => by simp at hne⟩
      · simp only [hrd]
        split
        · split
          · exact ⟨hbase, fun h0 => absurd h0 (by omega),
              fun _ => ⟨j, by first | exact hfs | rfl, by first | rfl | trivial,
                by first | rfl | trivial, by first | rfl | trivial⟩⟩
          · exact ⟨by simp [U32_MOD], fun _ => by constructor <;> first | rfl | trivial,
              fun hne => by simp at hne⟩
        · exact ⟨by simp [U32_MOD], fun _ => by constructor <;> first | rfl | trivial,
            fun hne => by simp at hne⟩

/-- Claim C7 witness: from a fresh scan-consistent catalog, a failing
subsector erase returns 0 with count and last pointer unchanged, while the
all-success run returns the slot 0 base address, count 1 and last pointer
on slot 0. -/
theorem C7_allocate_result_witness :
    (cW.WF ∧ ScanConsistent sFresh ∧ slotAddr cW sFresh.slots.length ≤ cW.kf_end) ∧
    (LLKERNEL_IMPL_allocateFeature cW (fun _ => false) (fun _ => true)
        sFresh 1024 8192).2 = 0 ∧
    (LLKERNEL_IMPL_allocateFeature cW (fun _ => false) (fun _ => true)
        sFresh 1024 8192).1.nb_features = sFresh.nb_features ∧
    (LLKERNEL_IMPL_allocateFeature cW (fun _ => false) (fun _ => true)
        sFresh 1024 8192).1.last_feature = sFresh.last_feature ∧
    (LLKERNEL_IMPL_allocateFeature cW (fun _ => true) (fun _ => true)
        sFresh 1024 8192).2 = slotAddr cW 0 ∧
    (LLKERNEL_IMPL_allocateFeature cW (fun _ => true) (fun _ => true)
        sFresh 1024 8192).1.nb_features = sFresh.nb_features + 1 ∧
    (LLKERNEL_IMPL_allocateFeature cW (fun _ => true) (fun _ => true)
        sFresh 1024 8192).1.last_feature = some 0 :=
  ⟨⟨by decide, by decide, by decide⟩,
   (by decide : (LLKERNEL_IMPL_allocateFeature cW (fun _ => false) (fun _ => true)
      sFresh 1024 8192).2 = 0),
   ((C7_allocate_result cW (by decide) sFresh (by decide) (by decide)
      (fun _ => false) (fun _ => true) 1024 8192).2.1 (by decide)).1,
   ((C7_allocate_result cW (by decide) sFresh (by decide) (by decide)
      (fun _ => false) (fun _ => true) 1024 8192).2.1 (by decide)).2,
   by decide, by decide, by decide⟩
